import Mathlib

/-!
Shallow embedding of the flashcard-generation agent
(`src/models.py`, `src/main.py`, `src/streamlit_app.py`, `src/study_session.py`,
`src/openai_client.py`, `src/evaluator.py`) together with proofs settling the
frozen claims about it.

Modelling conventions:
* Python `int` is embedded as `Int`; list lengths as `Nat`.
* Python floats produced by the aggregation code are embedded as `ℚ`
  (the claims are about exact arithmetic identities of means).
* Fallible Python code (list subscripts that can raise `IndexError`,
  `raise ValueError`, attribute access that can raise `AttributeError`,
  pydantic-v2 assignment to an undeclared field, which raises `ValueError`)
  is embedded in the `Except PyErr` monad.
* The external text-generation service ("oracle") is a parameter: each
  embedded operation takes the oracle's responses as a function argument,
  quantified over in the theorems.
-/

namespace FlashcardAgent

/-- Python exceptions relevant to the embedded code. -/
inductive PyErr where
  | indexError : PyErr
  | valueError : String → PyErr
  | attributeError : String → PyErr
deriving Repr, DecidableEq

/-- Left-to-right effectful map over a list in the `Except` monad: the meaning
of a Python list comprehension whose body may raise (first raise wins). -/
def exceptMap (f : α → Except PyErr β) : List α → Except PyErr (List β)
  | [] => Except.ok []
  | a :: as =>
    match f a with
    | Except.error e => Except.error e
    | Except.ok b =>
      match exceptMap f as with
      | Except.error e => Except.error e
      | Except.ok bs => Except.ok (b :: bs)

theorem exceptMap_ok_of_forall (f : α → Except PyErr β) (l : List α)
    (h : ∀ a ∈ l, ∃ b, f a = Except.ok b) :
    ∃ bs, exceptMap f l = Except.ok bs ∧ bs.length = l.length := by
  induction l with
  | nil => exact ⟨[], rfl, rfl⟩
  | cons a as ih =>
    obtain ⟨b, hb⟩ := h a (List.mem_cons_self a as)
    obtain ⟨bs, hbs, hlen⟩ := ih (fun x hx => h x (List.mem_cons_of_mem a hx))
    refine ⟨b :: bs, ?_, by simp [hlen]⟩
    simp [exceptMap, hb, hbs]

theorem exceptMap_isOk_iff (f : α → Except PyErr β) (l : List α) :
    (exceptMap f l).isOk = true ↔ ∀ a ∈ l, ∃ b, f a = Except.ok b := by
  induction l with
  | nil => simp [exceptMap, Except.isOk, Except.toBool]
  | cons a as ih =>
    constructor
    · intro h
      intro x hx
      rcases List.mem_cons.mp hx with rfl | hx'
      · cases hfa : f x with
        | ok b => exact ⟨b, rfl⟩
        | error e => rw [exceptMap, hfa] at h; simp [Except.isOk, Except.toBool] at h
      · apply ih.mp _ x hx'
        cases hfa : f a with
        | error e => rw [exceptMap, hfa] at h; simp [Except.isOk, Except.toBool] at h
        | ok b =>
          rw [exceptMap, hfa] at h
          cases hrest : exceptMap f as with
          | error e => rw [hrest] at h; simp [Except.isOk, Except.toBool] at h
          | ok bs => simp [hrest, Except.isOk, Except.toBool]
    · intro h
      obtain ⟨bs, hbs, _⟩ := exceptMap_ok_of_forall f (a :: as) h
      simp [hbs, Except.isOk, Except.toBool]

theorem exceptMap_error_elim (f : α → Except PyErr β) (l : List α) (e : PyErr)
    (he : exceptMap f l = Except.error e) : ∃ a ∈ l, f a = Except.error e := by
  induction l with
  | nil => simp [exceptMap] at he
  | cons a as ih =>
    rw [exceptMap] at he
    cases hfa : f a with
    | error e' =>
      rw [hfa] at he
      exact ⟨a, List.mem_cons_self a as, by cases he; exact hfa⟩
    | ok b =>
      rw [hfa] at he
      cases hrest : exceptMap f as with
      | error e' =>
        rw [hrest] at he
        obtain ⟨x, hx, hfx⟩ := ih (by cases he; exact hrest)
        exact ⟨x, List.mem_cons_of_mem a hx, hfx⟩
      | ok bs => rw [hrest] at he; cases he

theorem except_bind_ok {x : Except PyErr α} {f : α → Except PyErr β} {b : β}
    (h : (x >>= f) = Except.ok b) : ∃ a, x = Except.ok a ∧ f a = Except.ok b := by
  cases x with
  | error e => cases h
  | ok a => exact ⟨a, rfl, h⟩

/-! ### Data model (`src/models.py`) -/

/-- Embedding of `models.Flashcard`: single flashcard with question and answer. -/
structure Flashcard where
  question : String
  answer : String
deriving Repr, DecidableEq

/-- Embedding of `models.FlashcardSet`: collection of flashcards. -/
structure FlashcardSet where
  flashcards : List Flashcard
deriving Repr, DecidableEq

/-- Embedding of `models.Critique`: AI critique of flashcard quality. -/
structure Critique where
  is_acceptable : Bool
  feedback : String
  issues : List String
deriving Repr, DecidableEq

/-- Embedding of `models.StudyRating`: individual flashcard rating from user.
`flashcard_index` is a Python `int`: it may be negative. -/
structure StudyRating where
  flashcard_index : Int
  difficulty : Int
deriving Repr, DecidableEq

/-- Embedding of `models.StudySession`: complete study session results. -/
structure StudySession where
  flashcards : List Flashcard
  ratings : List StudyRating
  timestamp : String
deriving Repr, DecidableEq

/-- Embedding of `models.KnowledgeGaps`: AI analysis of student performance. -/
structure KnowledgeGaps where
  strong_areas : List String
  weak_areas : List String
  critical_gaps : List String
  recommended_additions : List Flashcard
  recommended_removals : List Int
  gap_report : String
deriving Repr, DecidableEq

/-- Embedding of `models.AdaptiveUpdate`: final result of adaptation. -/
structure AdaptiveUpdate where
  original_count : Nat
  cards_removed : List Flashcard
  cards_added : List Flashcard
  final_flashcards : FlashcardSet
  gap_report : String
deriving Repr, DecidableEq

/-! ### Python list subscription

`l[i]` with an `int` index: a negative index counts from the end
(`l[-1]` is the last element); an index outside `[-len(l), len(l))`
raises `IndexError`. -/

/-- The position actually read by Python's `l[i]`, if in range. -/
def pyIndex (n : Nat) (i : Int) : Option Nat :=
  if 0 ≤ i ∧ i < (n : Int) then some i.toNat
  else if 0 ≤ i + (n : Int) ∧ i < 0 then some (i + (n : Int)).toNat
  else none

/-- Python list subscription `l[i]`, raising `IndexError` when out of range. -/
def pyGet (l : List α) (i : Int) : Except PyErr α :=
  match pyIndex l.length i with
  | some j =>
    match l[j]? with
    | some a => Except.ok a
    | none => Except.error PyErr.indexError
  | none => Except.error PyErr.indexError

theorem pyIndex_lt {n : Nat} {i : Int} {j : Nat} (h : pyIndex n i = some j) : j < n := by
  unfold pyIndex at h
  split at h
  · next hin =>
    cases h
    omega
  · split at h
    · next hneg =>
      cases h
      omega
    · cases h

theorem pyGet_ok_of_nonneg {l : List α} {i : Int}
    (h0 : 0 ≤ i) (hlt : i < (l.length : Int)) :
    ∃ a, pyGet l i = Except.ok a := by
  have hidx : pyIndex l.length i = some i.toNat := by
    unfold pyIndex
    rw [if_pos ⟨h0, hlt⟩]
  have hj : i.toNat < l.length := by omega
  refine ⟨l.get ⟨i.toNat, hj⟩, ?_⟩
  simp [pyGet, hidx, List.getElem?_eq_getElem hj, List.get_eq_getElem]

theorem pyGet_isOk_iff (l : List α) (i : Int) :
    (pyGet l i).isOk = true ↔ 0 ≤ i + (l.length : Int) ∧ i < (l.length : Int) := by
  constructor
  · intro h
    unfold pyGet at h
    cases hidx : pyIndex l.length i with
    | none => rw [hidx] at h; simp [Except.isOk, Except.toBool] at h
    | some j =>
      unfold pyIndex at hidx
      split at hidx
      · next hin => omega
      · split at hidx
        · next hneg => omega
        · cases hidx
  · rintro ⟨h0, hlt⟩
    rcases le_or_lt 0 i with hpos | hneg
    · obtain ⟨a, ha⟩ := pyGet_ok_of_nonneg hpos hlt
      simp [ha, Except.isOk, Except.toBool]
    · have hidx : pyIndex l.length i = some (i + (l.length : Int)).toNat := by
        unfold pyIndex
        rw [if_neg (by omega), if_pos ⟨h0, hneg⟩]
      have hj : (i + (l.length : Int)).toNat < l.length := by omega
      simp [pyGet, hidx, List.getElem?_eq_getElem hj, Except.isOk, Except.toBool]

theorem pyGet_error_eq {l : List α} {i : Int} {e : PyErr}
    (h : pyGet l i = Except.error e) : e = PyErr.indexError := by
  unfold pyGet at h
  cases hidx : pyIndex l.length i with
  | none => simp [hidx] at h; cases h; rfl
  | some j =>
    simp only [hidx] at h
    cases hget : l[j]? with
    | none => simp [hget] at h; cases h; rfl
    | some a => simp [hget] at h

theorem pyGet_not_isOk {l : List α} {i : Int}
    (h : ¬ (0 ≤ i + (l.length : Int) ∧ i < (l.length : Int))) :
    pyGet l i = Except.error PyErr.indexError := by
  cases hres : pyGet l i with
  | ok a =>
    exact absurd ((pyGet_isOk_iff l i).mp (by simp [hres, Except.isOk, Except.toBool])) h
  | error e => rw [pyGet_error_eq hres]

/-! ### Critique-revise loop (`src/main.py` `create_flashcards`, lines 563-585;
identical loop shape in `src/streamlit_app.py`, lines 210-219)

```python
for i in range(max_iterations):
    critique = critique_flashcards(flashcards, model)
    if critique.is_acceptable:
        break
    flashcards = revise_flashcards(flashcards, critique, model)
```

The oracle's critique and revise responses are parameters indexed by the
iteration number, so a theorem quantifying over them covers every sequence of
(successfully parsed) oracle responses. -/

/-- Outcome of the critique-revise loop, instrumented with the number of
critique and revise oracle calls performed and whether the loop terminated
through the acceptance `break`. -/
structure LoopResult where
  flashcards : FlashcardSet
  critiqueCalls : Nat
  reviseCalls : Nat
  accepted : Bool
deriving Repr, DecidableEq

/-- The body of `for i in range(max_iterations)`: `fuel` iterations remain and
`i` is the current iteration index. -/
def loopAux (critiqueO : Nat → FlashcardSet → Critique)
    (reviseO : Nat → FlashcardSet → Critique → FlashcardSet) :
    Nat → Nat → FlashcardSet → LoopResult
  | 0, _, fs => ⟨fs, 0, 0, false⟩
  | fuel + 1, i, fs =>
    let c := critiqueO i fs
    if c.is_acceptable then ⟨fs, 1, 0, true⟩
    else
      let r := loopAux critiqueO reviseO fuel (i + 1) (reviseO i fs c)
      ⟨r.flashcards, r.critiqueCalls + 1, r.reviseCalls + 1, r.accepted⟩

/-- The critique-revise loop of `create_flashcards` with
`max_iterations = k`, starting from the freshly generated card set. -/
def critiqueReviseLoop (k : Nat) (initial : FlashcardSet)
    (critiqueO : Nat → FlashcardSet → Critique)
    (reviseO : Nat → FlashcardSet → Critique → FlashcardSet) : LoopResult :=
  loopAux critiqueO reviseO k 0 initial

/-- The card set held in `flashcards` at the start of iteration `i` of the
loop, assuming no earlier critique was acceptable. -/
def loopStates (initial : FlashcardSet) (critiqueO : Nat → FlashcardSet → Critique)
    (reviseO : Nat → FlashcardSet → Critique → FlashcardSet) : Nat → FlashcardSet
  | 0 => initial
  | i + 1 =>
    let fs := loopStates initial critiqueO reviseO i
    reviseO i fs (critiqueO i fs)

theorem loopAux_critique_le (critiqueO : Nat → FlashcardSet → Critique)
    (reviseO : Nat → FlashcardSet → Critique → FlashcardSet) (fuel i : Nat)
    (fs : FlashcardSet) :
    (loopAux critiqueO reviseO fuel i fs).critiqueCalls ≤ fuel ∧
      (loopAux critiqueO reviseO fuel i fs).reviseCalls ≤
        (loopAux critiqueO reviseO fuel i fs).critiqueCalls := by
  induction fuel generalizing i fs with
  | zero => simp [loopAux]
  | succ n ih =>
    rw [loopAux]
    by_cases hc : (critiqueO i fs).is_acceptable
    · simp [hc]
    · simp only [hc, if_neg, Bool.false_eq_true, if_false]
      have := ih (i + 1) (reviseO i fs (critiqueO i fs))
      constructor
      · exact Nat.succ_le_succ this.1
      · exact Nat.succ_le_succ this.2

theorem loopAux_accepted (initial : FlashcardSet)
    (critiqueO : Nat → FlashcardSet → Critique)
    (reviseO : Nat → FlashcardSet → Critique → FlashcardSet) (fuel i j : Nat)
    (hij : i ≤ j) (hlt : j < i + fuel)
    (hacc : (critiqueO j (loopStates initial critiqueO reviseO j)).is_acceptable = true)
    (hmin : ∀ m, i ≤ m → m < j →
      (critiqueO m (loopStates initial critiqueO reviseO m)).is_acceptable = false) :
    loopAux critiqueO reviseO fuel i (loopStates initial critiqueO reviseO i) =
      ⟨loopStates initial critiqueO reviseO j, j - i + 1, j - i, true⟩ := by
  induction fuel generalizing i with
  | zero => omega
  | succ n ih =>
    rw [loopAux]
    rcases Nat.eq_or_lt_of_le hij with rfl | hij'
    · simp [hacc]
    · have hne : (critiqueO i (loopStates initial critiqueO reviseO i)).is_acceptable = false :=
        hmin i le_rfl hij'
      simp only [hne, Bool.false_eq_true, if_false]
      have hstep : reviseO i (loopStates initial critiqueO reviseO i)
          (critiqueO i (loopStates initial critiqueO reviseO i)) =
          loopStates initial critiqueO reviseO (i + 1) := rfl
      rw [hstep, ih (i + 1) hij' (by omega) (fun m hm1 hm2 => hmin m (by omega) hm2)]
      have h1 : j - (i + 1) + 1 = j - i := by omega
      have h2 : j - (i + 1) + 1 + 1 = j - i + 1 := by omega
      simp [h1, h2]

theorem loopAux_exhausted (initial : FlashcardSet)
    (critiqueO : Nat → FlashcardSet → Critique)
    (reviseO : Nat → FlashcardSet → Critique → FlashcardSet) (fuel i : Nat)
    (h : ∀ m, i ≤ m → m < i + fuel →
      (critiqueO m (loopStates initial critiqueO reviseO m)).is_acceptable = false) :
    loopAux critiqueO reviseO fuel i (loopStates initial critiqueO reviseO i) =
      ⟨loopStates initial critiqueO reviseO (i + fuel), fuel, fuel, false⟩ := by
  induction fuel generalizing i with
  | zero => simp [loopAux]
  | succ n ih =>
    rw [loopAux]
    have hne : (critiqueO i (loopStates initial critiqueO reviseO i)).is_acceptable = false :=
      h i le_rfl (by omega)
    simp only [hne, Bool.false_eq_true, if_false]
    have hstep : reviseO i (loopStates initial critiqueO reviseO i)
        (critiqueO i (loopStates initial critiqueO reviseO i)) =
        loopStates initial critiqueO reviseO (i + 1) := rfl
    rw [hstep, ih (i + 1) (fun m hm1 hm2 => h m (by omega) (by omega))]
    have harith : i + 1 + n = i + (n + 1) := by omega
    simp [harith]

/-! ### Study session recorder (`src/study_session.py` `conduct_study_session`)

The function walks the card set with `enumerate`, shows each card once, and
for each card loops `while True` reading integer inputs until one lies in
`[1, 5]`; that value is appended as `StudyRating(flashcard_index=idx,
difficulty=rating)`.  The learner's console entries for one card are embedded
as a list of integers (a non-integer entry raises `ValueError` and is
re-prompted exactly like an out-of-range integer, so it contributes no
candidate).  A card whose entry list contains no valid rating would make the
Python `while True` loop spin forever; that — and exhaustion of the input
stream — is embedded as `none`. -/

/-- The first entry accepted by the `while True:` rating prompt, if any. -/
def firstValidRating (attempts : List Int) : Option Int :=
  attempts.find? (fun r => decide (1 ≤ r) && decide (r ≤ 5))

/-- The `for idx, flashcard in enumerate(...)` rating-collection loop:
one attempt list per card, consumed positionally. -/
def collectRatings (idx : Nat) : List Flashcard → List (List Int) → Option (List StudyRating)
  | [], _ => some []
  | _ :: _, [] => none
  | _ :: rest, attempts :: more =>
    match firstValidRating attempts with
    | none => none
    | some d => (collectRatings (idx + 1) rest more).map (fun rs => ⟨(idx : Int), d⟩ :: rs)

/-- Embedding of `conduct_study_session`: presents every card in order, records one rating
per card, and returns a `StudySession` over the cards that were shown. -/
def conduct_study_session (flashcard_set : FlashcardSet) (inputs : List (List Int))
    (timestamp : String) : Option StudySession :=
  (collectRatings 0 flashcard_set.flashcards inputs).map
    (fun rs => ⟨flashcard_set.flashcards, rs, timestamp⟩)

theorem collectRatings_spec (cards : List Flashcard) (inputs : List (List Int)) (idx : Nat)
    (hlen : inputs.length = cards.length)
    (hvalid : ∀ l ∈ inputs, l ≠ [] ∧ ∀ r ∈ l, 1 ≤ r ∧ r ≤ 5) :
    ∃ rs, collectRatings idx cards inputs = some rs ∧ rs.length = cards.length ∧
      ∀ m (hm : m < rs.length),
        (rs.get ⟨m, hm⟩).flashcard_index = ((idx + m : Nat) : Int) ∧
        1 ≤ (rs.get ⟨m, hm⟩).difficulty ∧ (rs.get ⟨m, hm⟩).difficulty ≤ 5 := by
  induction cards generalizing idx inputs with
  | nil => exact ⟨[], rfl, rfl, fun m hm => absurd hm (by simp)⟩
  | cons c rest ih =>
    cases inputs with
    | nil => simp at hlen
    | cons attempts more =>
      obtain ⟨hne, hall⟩ := hvalid attempts (List.mem_cons_self _ _)
      have hfind : ∃ d, firstValidRating attempts = some d ∧ 1 ≤ d ∧ d ≤ 5 := by
        cases attempts with
        | nil => exact absurd rfl hne
        | cons a as =>
          obtain ⟨h1, h5⟩ := hall a (List.mem_cons_self _ _)
          refine ⟨a, ?_, h1, h5⟩
          simp [firstValidRating, List.find?, h1, h5]
      obtain ⟨d, hd, hd1, hd5⟩ := hfind
      obtain ⟨rs, hrs, hrslen, hrsspec⟩ := ih more (idx + 1) (by simpa using hlen)
        (fun l hl => hvalid l (List.mem_cons_of_mem _ hl))
      refine ⟨⟨(idx : Int), d⟩ :: rs, ?_, by simp [hrslen], ?_⟩
      · simp [collectRatings, hd, hrs]
      · intro m hm
        cases m with
        | zero => simp [hd1, hd5]
        | succ m' =>
          have hm' : m' < rs.length := by simpa using hm
          have := hrsspec m' hm'
          simpa [Nat.add_assoc, Nat.add_comm 1 m'] using this

/-! ### Mastered set, kept cards, adaptive update
(`src/study_session.py` `adaptive_update_flashcards`, lines 76-116; the copy in
`src/main.py` lines 476-515 differs only in how the oracle call is addressed)

```python
mastered_indices = set()
for rating in session.ratings:
    if rating.difficulty == 1:
        mastered_indices.add(rating.flashcard_index)
removed_cards = [original.flashcards[i] for i in mastered_indices]
kept_cards = [fc for idx, fc in enumerate(original.flashcards)
              if idx not in mastered_indices]
new_cards = generate_gap_filling_cards(gaps, ...)
final_cards = kept_cards + new_cards
```

`mastered_indices` is a Python `set`; its iteration order is an implementation
detail of the hash table, so only the *set* of removed cards is specified by
the source.  We embed it as a `Finset ℤ` and enumerate it in ascending order
as a canonical representative; no claim concerns the order of
`cards_removed`. -/

/-- The mastered set: distinct `flashcard_index` values of ratings with
`difficulty == 1`. -/
def masteredIndices (ratings : List StudyRating) : Finset Int :=
  ((ratings.filter (fun r => r.difficulty = 1)).map (fun r => r.flashcard_index)).toFinset

theorem mem_masteredIndices (ratings : List StudyRating) (i : Int) :
    i ∈ masteredIndices ratings ↔
      ∃ r ∈ ratings, r.difficulty = 1 ∧ r.flashcard_index = i := by
  simp only [masteredIndices, List.mem_toFinset, List.mem_map, List.mem_filter]
  constructor
  · rintro ⟨r, ⟨hr, hd⟩, hi⟩
    exact ⟨r, hr, by simpa using hd, hi⟩
  · rintro ⟨r, hr, hd, hi⟩
    exact ⟨r, ⟨hr, by simpa using hd⟩, hi⟩

/-- The `enumerate` filter producing `kept_cards`, with `idx` the current
0-based position. -/
def keptAux (m : Finset Int) : Nat → List Flashcard → List Flashcard
  | _, [] => []
  | idx, fc :: rest =>
    if (idx : Int) ∈ m then keptAux m (idx + 1) rest
    else fc :: keptAux m (idx + 1) rest

/-- Embedding of `kept_cards`: the original cards whose position is not in the mastered
set, in original order. -/
def keptCards (cards : List Flashcard) (m : Finset Int) : List Flashcard :=
  keptAux m 0 cards

theorem keptAux_eq_enumFrom (m : Finset Int) (cards : List Flashcard) (idx : Nat) :
    keptAux m idx cards =
      ((cards.enumFrom idx).filter (fun p => decide ((p.1 : Int) ∉ m))).map Prod.snd := by
  induction cards generalizing idx with
  | nil => rfl
  | cons c rest ih =>
    by_cases hc : (idx : Int) ∈ m
    · simp [keptAux, List.enumFrom, List.filter, hc, ih]
    · simp [keptAux, List.enumFrom, List.filter, hc, ih]

theorem keptCards_eq_enum (cards : List Flashcard) (m : Finset Int) :
    keptCards cards m =
      ((cards.enum).filter (fun p => decide ((p.1 : Int) ∉ m))).map Prod.snd := by
  rw [keptCards, keptAux_eq_enumFrom]
  rfl

/-- The integer positions `[s, s+1, ..., s+n-1]` used to count how many
`enumerate` positions fall in the mastered set. -/
def intRange (s n : Nat) : List Int :=
  (List.range' s n).map (fun i : Nat => (i : Int))

theorem intRange_succ (s n : Nat) :
    intRange s (n + 1) = (s : Int) :: intRange (s + 1) n := by
  rw [intRange, List.range'_succ, List.map_cons, intRange]

theorem mem_intRange (s n : Nat) (x : Int) :
    x ∈ intRange s n ↔ (s : Int) ≤ x ∧ x < (s : Int) + n := by
  simp only [intRange, List.mem_map, List.mem_range']
  constructor
  · rintro ⟨i, ⟨hle, hlt⟩, rfl⟩
    omega
  · rintro ⟨hle, hlt⟩
    exact ⟨x.toNat, ⟨x.toNat - s, by omega, by omega⟩, by omega⟩

theorem intRange_nodup (s n : Nat) : (intRange s n).Nodup :=
  (List.nodup_range' s n).map (fun a b => by omega)

theorem keptAux_length (m : Finset Int) (cards : List Flashcard) (idx : Nat) :
    (keptAux m idx cards).length +
      ((intRange idx cards.length).filter (fun i => decide (i ∈ m))).length =
      cards.length := by
  induction cards generalizing idx with
  | nil => rfl
  | cons c rest ih =>
    have hih := ih (idx + 1)
    by_cases hc : (idx : Int) ∈ m
    · simp only [keptAux, List.length_cons, intRange_succ, List.filter_cons]
      rw [if_pos hc, if_pos (by simpa using hc)]
      simp only [List.length_cons]
      omega
    · simp only [keptAux, List.length_cons, intRange_succ, List.filter_cons]
      rw [if_neg hc, if_neg (by simpa using hc)]
      simp only [List.length_cons]
      omega

theorem filter_intRange_card (m : Finset Int) (n : Nat)
    (hm : ∀ x ∈ m, 0 ≤ x ∧ x < (n : Int)) :
    ((intRange 0 n).filter (fun i => decide (i ∈ m))).length = m.card := by
  have hnodup : ((intRange 0 n).filter (fun i => decide (i ∈ m))).Nodup :=
    (intRange_nodup 0 n).filter _
  have hset : ((intRange 0 n).filter (fun i => decide (i ∈ m))).toFinset = m := by
    ext x
    simp only [List.mem_toFinset, List.mem_filter, mem_intRange, decide_eq_true_eq]
    constructor
    · rintro ⟨_, hx⟩
      exact hx
    · intro hx
      have := hm x hx
      exact ⟨by omega, hx⟩
  calc ((intRange 0 n).filter (fun i => decide (i ∈ m))).length
      = ((intRange 0 n).filter (fun i => decide (i ∈ m))).toFinset.card :=
        (List.toFinset_card_of_nodup hnodup).symm
    _ = m.card := by rw [hset]

theorem keptCards_length (m : Finset Int) (cards : List Flashcard)
    (hm : ∀ x ∈ m, 0 ≤ x ∧ x < (cards.length : Int)) :
    (keptCards cards m).length + m.card = cards.length := by
  have := keptAux_length m cards 0
  rw [filter_intRange_card m cards.length hm] at this
  exact this

/-! ### Oracle-facing generation calls (`src/openai_client.py`)

Each embedded call takes the oracle's (already schema-validated) response as a
function argument and is instrumented with the number of oracle requests
actually issued, so "no oracle call is made" is a provable statement. -/

/-- Embedding of `openai_client.generate_flashcards`, instrumented with the number of
oracle requests issued.  The guard
`if (file_id is None) == (text_content is None): raise ValueError(...)`
runs before any request. -/
def generate_flashcardsRun (file_id text_content : Option String)
    (oracle : Option String → Option String → FlashcardSet) :
    Except PyErr FlashcardSet × Nat :=
  if file_id.isNone == text_content.isNone then
    (Except.error (PyErr.valueError "Must provide exactly one of file_id or text_content"), 0)
  else
    (Except.ok (oracle file_id text_content), 1)

/-- Embedding of `openai_client.generate_gap_filling_cards`, instrumented with the number
of oracle requests issued.  The empty-gaps early return
(`if not gaps.critical_gaps and not gaps.weak_areas: return []`) runs
*before* the exactly-one-of check. -/
def generate_gap_filling_cardsRun (gaps : KnowledgeGaps)
    (file_id text_content : Option String)
    (oracle : KnowledgeGaps → Option String → Option String → List Flashcard) :
    Except PyErr (List Flashcard) × Nat :=
  if gaps.critical_gaps = [] ∧ gaps.weak_areas = [] then
    (Except.ok [], 0)
  else if file_id.isNone == text_content.isNone then
    (Except.error (PyErr.valueError "Must provide exactly one of file_id or text_content"), 0)
  else
    (Except.ok (oracle gaps file_id text_content), 1)

/-- The value returned (or exception raised) by
`generate_gap_filling_cards`. -/
def generate_gap_filling_cards (gaps : KnowledgeGaps)
    (file_id text_content : Option String)
    (oracle : KnowledgeGaps → Option String → Option String → List Flashcard) :
    Except PyErr (List Flashcard) :=
  (generate_gap_filling_cardsRun gaps file_id text_content oracle).1

/-! ### Adaptive updater (`src/study_session.py` `adaptive_update_flashcards`)

The gap-card generation step is abstracted as `genGapCards` so that theorems
can quantify over any oracle behaviour; the production instantiation is
`fun g => generate_gap_filling_cards g file_id text_content oracle`. -/

/-- Embedding of `adaptive_update_flashcards`: remove mastered cards, add gap-filling
cards.  Steps in source order: build the mastered set, subscript the original
list at each mastered index (may raise `IndexError`), filter the kept cards,
call gap-card generation (may raise), concatenate. -/
def adaptive_update_flashcards (original : FlashcardSet) (session : StudySession)
    (gaps : KnowledgeGaps)
    (genGapCards : KnowledgeGaps → Except PyErr (List Flashcard)) :
    Except PyErr AdaptiveUpdate := do
  let removed_cards ← exceptMap (fun i => pyGet original.flashcards i)
    ((masteredIndices session.ratings).sort (fun a b => a ≤ b))
  let new_cards ← genGapCards gaps
  Except.ok
    { original_count := original.flashcards.length
      cards_removed := removed_cards
      cards_added := new_cards
      final_flashcards :=
        ⟨keptCards original.flashcards (masteredIndices session.ratings) ++ new_cards⟩
      gap_report := gaps.gap_report }

/-! ### Gap analyzer (`src/openai_client.py` `analyze_knowledge_gaps`)

The prompt-formatting loop subscripts `session.flashcards` at every rating's
`flashcard_index` before the oracle request is issued:

```python
for rating in session.ratings:
    fc = session.flashcards[rating.flashcard_index]
    flashcard_ratings.append(f"Card {rating.flashcard_index+1} ...")
``` -/

/-- One iteration of the formatting loop of `analyze_knowledge_gaps`:
`fc = session.flashcards[rating.flashcard_index]` (may raise `IndexError`)
followed by the f-string. -/
def analyzeRatingLine (session : StudySession) (r : StudyRating) :
    Except PyErr String :=
  match pyGet session.flashcards r.flashcard_index with
  | Except.error e => Except.error e
  | Except.ok fc =>
    Except.ok ("Card " ++ toString (r.flashcard_index + 1) ++ " (Difficulty: " ++
      toString r.difficulty ++ "/5): Q: " ++ fc.question ++ " | A: " ++ fc.answer)

/-- The formatted per-rating lines of `analyze_knowledge_gaps`; subscripting
may raise `IndexError`. -/
def analyzeRatingLines (session : StudySession) : Except PyErr (List String) :=
  exceptMap (analyzeRatingLine session) session.ratings

/-- Embedding of `analyze_knowledge_gaps`: format the rated session, then send it to the
oracle and return the parsed `KnowledgeGaps`. -/
def analyze_knowledge_gaps (session : StudySession)
    (oracle : List String → KnowledgeGaps) : Except PyErr KnowledgeGaps := do
  let lines ← analyzeRatingLines session
  Except.ok (oracle lines)

/-! ### Quality evaluator (`src/evaluator.py`)

Scores are integers from the oracle; the Python aggregation produces floats,
embedded here as `ℚ` (the claims are exact-arithmetic identities).

Attribute access on pydantic models is embedded by name: reading a field that
the class does not declare raises `AttributeError`; *assigning* a field that
the class does not declare raises `ValueError` under pydantic v2
(`"X" object has no field "f"`).  The field inventories below are exactly the
class declarations of `src/models.py`. -/

/-- Embedding of `models.FlashcardEvaluation` (fields as declared in `src/models.py`,
lines 57-62): `atomicity`, `clarity`, `long_term_retention_potential`,
`feedback`.  Note: no `learning_value` and no `accuracy` field. -/
structure FlashcardEvaluation where
  atomicity : Int
  clarity : Int
  long_term_retention_potential : Int
  feedback : String
deriving Repr, DecidableEq

/-- Python `getattr(eval, name)` for the integer-valued fields of
`FlashcardEvaluation`; any other name raises `AttributeError` (the only
remaining declared field, `feedback`, is a string and is never read by the
aggregation code). -/
def FlashcardEvaluation.getattrInt (e : FlashcardEvaluation) (name : String) :
    Except PyErr Int :=
  if name = "atomicity" then Except.ok e.atomicity
  else if name = "clarity" then Except.ok e.clarity
  else if name = "long_term_retention_potential" then Except.ok e.long_term_retention_potential
  else Except.error (PyErr.attributeError name)

/-- The criterion names iterated over by `evaluate_flashcard_set`
(`src/evaluator.py`, line 170). -/
def deckCriteria : List String := ["atomicity", "clarity", "learning_value", "accuracy"]

/-- Python `sum(scores) / len(scores) if scores else 0.0` over `ℚ`. -/
def ratMean (scores : List Int) : ℚ :=
  if scores = [] then 0 else ((scores.map (fun z : Int => (z : ℚ))).sum) / scores.length

/-- One pass of the `for criterion in criteria:` loop body of
`evaluate_flashcard_set`: `[getattr(eval, criterion) for eval in ...]`. -/
def criterionScores (evals : List FlashcardEvaluation) (c : String) :
    Except PyErr (List Int) :=
  exceptMap (fun e => FlashcardEvaluation.getattrInt e c) evals

/-- The aggregation tail of `evaluate_flashcard_set`
(`src/evaluator.py`, lines 167-183), applied to the oracle-supplied per-card
evaluations and the oracle-supplied `average_scores` (kept only when the
evaluation list is empty; a `None` from the oracle becomes `{}`).  The
`for criterion in criteria:` loop is unrolled over the constant list
`deckCriteria`; each pass stores
`sum(scores) / len(scores) if scores else 0.0` under the criterion's key, and
`overall_deck_score` is the mean of the stored values (the
`if evaluation.average_scores else 0.0` guard is dead in this branch: the
dict always holds the four criterion keys).  Returns the final
`(average_scores, overall_deck_score)` pair. -/
def computeDeckAverages (evals : List FlashcardEvaluation)
    (initAverages : Option (List (String × ℚ))) :
    Except PyErr (List (String × ℚ) × ℚ) :=
  if evals ≠ [] then do
    let s₁ ← criterionScores evals "atomicity"
    let s₂ ← criterionScores evals "clarity"
    let s₃ ← criterionScores evals "learning_value"
    let s₄ ← criterionScores evals "accuracy"
    Except.ok
      ([("atomicity", ratMean s₁), ("clarity", ratMean s₂),
        ("learning_value", ratMean s₃), ("accuracy", ratMean s₄)],
       (ratMean s₁ + ratMean s₂ + ratMean s₃ + ratMean s₄) / 4)
  else
    Except.ok (initAverages.getD [], 0)

/-- Embedding of `models.GapCardEvaluation` (declared fields, `src/models.py` lines
72-77): note there is no `personalization_score` field. -/
structure GapCardEvaluation where
  gap_description : String
  addressing_cards : List Int
  gap_coverage_score : Int
  relevance_feedback : String
deriving Repr, DecidableEq

/-- Python `getattr` for the integer-valued fields of `GapCardEvaluation`. -/
def GapCardEvaluation.getattrInt (g : GapCardEvaluation) (name : String) :
    Except PyErr Int :=
  if name = "gap_coverage_score" then Except.ok g.gap_coverage_score
  else Except.error (PyErr.attributeError name)

/-- Embedding of `models.RemovalEvaluation` (declared fields, `src/models.py` lines
80-86): note there is no `personalization_score` field. -/
structure RemovalEvaluation where
  removed_card_index : Int
  removed_card_question : String
  user_rating : Int
  removal_appropriateness : Int
  removal_feedback : String
deriving Repr, DecidableEq

/-- Python `getattr` for the integer-valued fields of `RemovalEvaluation`. -/
def RemovalEvaluation.getattrInt (r : RemovalEvaluation) (name : String) :
    Except PyErr Int :=
  if name = "removed_card_index" then Except.ok r.removed_card_index
  else if name = "user_rating" then Except.ok r.user_rating
  else if name = "removal_appropriateness" then Except.ok r.removal_appropriateness
  else Except.error (PyErr.attributeError name)

/-- Embedding of `models.AdaptationEvaluation` (declared fields, `src/models.py` lines
89-95): `gap_evaluations`, `removal_evaluations`, `average_gap_coverage`,
`average_removal_appropriateness`, `overall_adaptation_effectiveness`.
Note: no `average_gap_personalization`, `average_removal_personalization`
or `overall_personalization` field is declared. -/
structure AdaptationEvaluation where
  gap_evaluations : List GapCardEvaluation
  removal_evaluations : List RemovalEvaluation
  average_gap_coverage : ℚ
  average_removal_appropriateness : ℚ
  overall_adaptation_effectiveness : Int
deriving Repr, DecidableEq

/-- Assignment of a float value to a named attribute of a pydantic-v2
`AdaptationEvaluation`: declared float fields are stored; a declared
non-float field is accepted unchanged (no such assignment occurs in the
evaluator); an undeclared name raises
`ValueError("AdaptationEvaluation" object has no field ...)`. -/
def AdaptationEvaluation.pySetattrQ (e : AdaptationEvaluation) (name : String) (v : ℚ) :
    Except PyErr AdaptationEvaluation :=
  if name = "average_gap_coverage" then Except.ok { e with average_gap_coverage := v }
  else if name = "average_removal_appropriateness" then
    Except.ok { e with average_removal_appropriateness := v }
  else if name = "gap_evaluations" ∨ name = "removal_evaluations" ∨
      name = "overall_adaptation_effectiveness" then Except.ok e
  else
    Except.error
      (PyErr.valueError ("AdaptationEvaluation object has no field " ++ name))

/-- Read of a float attribute of `AdaptationEvaluation`; an undeclared name
raises `AttributeError`. -/
def AdaptationEvaluation.pyGetattrQ (e : AdaptationEvaluation) (name : String) :
    Except PyErr ℚ :=
  if name = "average_gap_coverage" then Except.ok e.average_gap_coverage
  else if name = "average_removal_appropriateness" then
    Except.ok e.average_removal_appropriateness
  else Except.error (PyErr.attributeError name)

/-- The aggregation tail of `evaluate_adaptation`
(`src/evaluator.py`, lines 360-383), applied to the oracle-parsed
`AdaptationEvaluation`, in source order.  (The `0.6`/`0.4` weights are the
exact rationals `6/10`/`4/10`; this branch is unreachable, see below.) -/
def evaluateAdaptationAggregation (e0 : AdaptationEvaluation) :
    Except PyErr AdaptationEvaluation := do
  let e1 ←
    if e0.gap_evaluations ≠ [] then do
      let gap_scores ← exceptMap
        (fun g => GapCardEvaluation.getattrInt g "personalization_score") e0.gap_evaluations
      AdaptationEvaluation.pySetattrQ e0 "average_gap_personalization" (ratMean gap_scores)
    else
      AdaptationEvaluation.pySetattrQ e0 "average_gap_personalization" 0
  let e2 ←
    if e1.removal_evaluations ≠ [] then do
      let removal_scores ← exceptMap
        (fun r => RemovalEvaluation.getattrInt r "personalization_score") e1.removal_evaluations
      AdaptationEvaluation.pySetattrQ e1 "average_removal_personalization" (ratMean removal_scores)
    else
      AdaptationEvaluation.pySetattrQ e1 "average_removal_personalization" 0
  let g ← AdaptationEvaluation.pyGetattrQ e2 "average_gap_personalization"
  let r ← AdaptationEvaluation.pyGetattrQ e2 "average_removal_personalization"
  let e3 ←
    if g > 0 ∨ r > 0 then
      AdaptationEvaluation.pySetattrQ e2 "overall_personalization" (6 / 10 * g + 4 / 10 * r)
    else
      AdaptationEvaluation.pySetattrQ e2 "overall_personalization" 0
  Except.ok e3

/-! ## Claims -/

/-- C1: For every run of the critique-revise loop with `maxIterations = k ≥ 1`
and every sequence of oracle critique/revise responses: the loop performs at
most `k` revision calls and at most `k + 1` critique calls; it terminates in
the accepted state with the current card set as soon as a critique returns
`acceptable = true`; and if the iteration budget is exhausted without
acceptance it still terminates normally, returning the last-produced card
set. -/
theorem critique_revise_loop_spec (k : Nat) (hk : 1 ≤ k) (initial : FlashcardSet)
    (critiqueO : Nat → FlashcardSet → Critique)
    (reviseO : Nat → FlashcardSet → Critique → FlashcardSet) :
    (critiqueReviseLoop k initial critiqueO reviseO).reviseCalls ≤ k ∧
    (critiqueReviseLoop k initial critiqueO reviseO).critiqueCalls ≤ k + 1 ∧
    (∀ j, j < k →
      (critiqueO j (loopStates initial critiqueO reviseO j)).is_acceptable = true →
      (∀ m, m < j →
        (critiqueO m (loopStates initial critiqueO reviseO m)).is_acceptable = false) →
      critiqueReviseLoop k initial critiqueO reviseO =
        ⟨loopStates initial critiqueO reviseO j, j + 1, j, true⟩) ∧
    ((∀ m, m < k →
        (critiqueO m (loopStates initial critiqueO reviseO m)).is_acceptable = false) →
      critiqueReviseLoop k initial critiqueO reviseO =
        ⟨loopStates initial critiqueO reviseO k, k, k, false⟩) := by
  have hb := loopAux_critique_le critiqueO reviseO k 0 initial
  refine ⟨le_trans hb.2 hb.1, le_trans hb.1 (Nat.le_succ k), ?_, ?_⟩
  · intro j hj hacc hmin
    have h := loopAux_accepted initial critiqueO reviseO k 0 j (Nat.zero_le j)
      (by omega) hacc (fun m _ hm => hmin m hm)
    simpa [critiqueReviseLoop, loopStates] using h
  · intro hall
    have h := loopAux_exhausted initial critiqueO reviseO k 0
      (fun m _ hm => hall m (by omega))
    simpa [critiqueReviseLoop, loopStates] using h

/-- Witness for C1 at `k = 1` with an immediately accepting critique
oracle. -/
theorem critique_revise_loop_spec_witness :
    (critiqueReviseLoop 1 ⟨[]⟩ (fun _ _ => ⟨true, "", []⟩)
      (fun _ fs _ => fs)).reviseCalls ≤ 1 :=
  (critique_revise_loop_spec 1 (by decide) ⟨[]⟩ (fun _ _ => ⟨true, "", []⟩)
    (fun _ fs _ => fs)).1

/-- Helper: the adaptive update when subscripting and gap-card generation
both succeed. -/
theorem adaptive_update_eq (original : FlashcardSet) (session : StudySession)
    (gaps : KnowledgeGaps) (gen : KnowledgeGaps → Except PyErr (List Flashcard))
    (removed new : List Flashcard)
    (hrem : exceptMap (fun i => pyGet original.flashcards i)
      ((masteredIndices session.ratings).sort (fun a b => a ≤ b)) = Except.ok removed)
    (hgen : gen gaps = Except.ok new) :
    adaptive_update_flashcards original session gaps gen = Except.ok
      { original_count := original.flashcards.length
        cards_removed := removed
        cards_added := new
        final_flashcards :=
          ⟨keptCards original.flashcards (masteredIndices session.ratings) ++ new⟩
        gap_report := gaps.gap_report } := by
  unfold adaptive_update_flashcards
  rw [hrem, hgen]
  rfl

/-- C2, counterexample: the claim's precondition only requires every rating
index to be `< len(original cards)`.  The session rating
`(flashcard_index = -1, difficulty = 1)` satisfies it (`-1 < 3`), Python's
negative indexing removes the *last* card without error, but `enumerate`
positions are never negative, so no card is dropped from the kept list: the
resulting update has 3 final cards while
`original_count - len(cards_removed) + len(cards_added) = 3 - 1 + 0 = 2`. -/
theorem adaptive_update_invariant_cx :
    ([(⟨-1, 1⟩ : StudyRating)].all (fun r => decide (r.flashcard_index < (3 : Int))) = true) ∧
    adaptive_update_flashcards
        ⟨[⟨"q0", "a0"⟩, ⟨"q1", "a1"⟩, ⟨"q2", "a2"⟩]⟩
        ⟨[⟨"q0", "a0"⟩, ⟨"q1", "a1"⟩, ⟨"q2", "a2"⟩], [⟨-1, 1⟩], "t"⟩
        ⟨[], [], [], [], [], "report"⟩ (fun _ => Except.ok []) =
      Except.ok ⟨3, [⟨"q2", "a2"⟩], [],
        ⟨[⟨"q0", "a0"⟩, ⟨"q1", "a1"⟩, ⟨"q2", "a2"⟩]⟩, "report"⟩ ∧
    ¬ ((3 : Int) = 3 - 1 + 0) := by
  refine ⟨by decide, ?_, by decide⟩
  have hm : masteredIndices [(⟨-1, 1⟩ : StudyRating)] = {(-1 : Int)} := by decide
  have hrem : exceptMap
      (fun i => pyGet [(⟨"q0", "a0"⟩ : Flashcard), ⟨"q1", "a1"⟩, ⟨"q2", "a2"⟩] i)
      ((masteredIndices [(⟨-1, 1⟩ : StudyRating)]).sort (fun a b => a ≤ b)) =
      Except.ok [⟨"q2", "a2"⟩] := by
    rw [hm, Finset.sort_singleton]
    rfl
  have h := adaptive_update_eq
    ⟨[⟨"q0", "a0"⟩, ⟨"q1", "a1"⟩, ⟨"q2", "a2"⟩]⟩
    ⟨[⟨"q0", "a0"⟩, ⟨"q1", "a1"⟩, ⟨"q2", "a2"⟩], [⟨-1, 1⟩], "t"⟩
    ⟨[], [], [], [], [], "report"⟩ (fun _ => Except.ok [])
    [⟨"q2", "a2"⟩] [] hrem rfl
  rw [h, hm]
  rfl

/-- C2, amended: with the precondition strengthened to
`0 ≤ card_index < len(original cards)` for every rating, every successful
gap-card generation yields an `AdaptiveUpdate` with
`len(final_cards) + len(cards_removed) = original_count + len(cards_added)`
and `final_cards` equal to the original cards at `enumerate` positions
outside the mastered set, in order, with the newly generated cards appended
after them. -/
theorem adaptive_update_invariant (original : FlashcardSet) (session : StudySession)
    (gaps : KnowledgeGaps) (gen : KnowledgeGaps → Except PyErr (List Flashcard))
    (new : List Flashcard)
    (hr : ∀ r ∈ session.ratings,
      0 ≤ r.flashcard_index ∧ r.flashcard_index < (original.flashcards.length : Int))
    (hgen : gen gaps = Except.ok new) :
    ∃ u, adaptive_update_flashcards original session gaps gen = Except.ok u ∧
      u.original_count = original.flashcards.length ∧
      u.cards_added = new ∧
      u.final_flashcards.flashcards.length + u.cards_removed.length =
        u.original_count + u.cards_added.length ∧
      u.final_flashcards.flashcards =
        ((original.flashcards.enum).filter
          (fun p => decide ((p.1 : Int) ∉ masteredIndices session.ratings))).map Prod.snd
          ++ new := by
  have hmb : ∀ x ∈ masteredIndices session.ratings,
      0 ≤ x ∧ x < (original.flashcards.length : Int) := by
    intro x hx
    obtain ⟨r, hrmem, _, hidx⟩ := (mem_masteredIndices session.ratings x).mp hx
    exact hidx ▸ hr r hrmem
  obtain ⟨removed, hrem, hremlen⟩ := exceptMap_ok_of_forall
    (fun i => pyGet original.flashcards i)
    ((masteredIndices session.ratings).sort (fun a b => a ≤ b))
    (fun i hi => by
      have hib := hmb i (Finset.mem_sort (fun a b => a ≤ b) |>.mp hi)
      exact pyGet_ok_of_nonneg hib.1 hib.2)
  have h := adaptive_update_eq original session gaps gen removed new hrem hgen
  refine ⟨_, h, rfl, rfl, ?_, ?_⟩
  · have hk := keptCards_length (masteredIndices session.ratings) original.flashcards hmb
    have hs : ((masteredIndices session.ratings).sort (fun a b => a ≤ b)).length =
        (masteredIndices session.ratings).card := Finset.length_sort (fun a b => a ≤ b)
    simp only [List.length_append]
    omega
  · simp only [keptCards_eq_enum]

/-- Witness for C2 (amended): one card, rated mastered, no gap cards. -/
theorem adaptive_update_invariant_witness :
    ∃ u, adaptive_update_flashcards ⟨[⟨"q", "a"⟩]⟩ ⟨[⟨"q", "a"⟩], [⟨0, 1⟩], "t"⟩
        ⟨[], [], [], [], [], "g"⟩ (fun _ => Except.ok []) = Except.ok u ∧
      u.original_count = 1 ∧
      u.cards_added = [] ∧
      u.final_flashcards.flashcards.length + u.cards_removed.length =
        u.original_count + u.cards_added.length ∧
      u.final_flashcards.flashcards =
        ((([⟨"q", "a"⟩] : List Flashcard).enum).filter
          (fun p => decide ((p.1 : Int) ∉ masteredIndices [⟨0, 1⟩]))).map Prod.snd
          ++ [] :=
  adaptive_update_invariant ⟨[⟨"q", "a"⟩]⟩ ⟨[⟨"q", "a"⟩], [⟨0, 1⟩], "t"⟩
    ⟨[], [], [], [], [], "g"⟩ (fun _ => Except.ok []) []
    (by intro r hr; simp at hr; simp [hr]) rfl

/-- Helper: a successful adaptive update determines the subscripting and
generation sub-results. -/
theorem adaptive_update_ok_elim (original : FlashcardSet) (session : StudySession)
    (gaps : KnowledgeGaps) (gen : KnowledgeGaps → Except PyErr (List Flashcard))
    (u : AdaptiveUpdate)
    (h : adaptive_update_flashcards original session gaps gen = Except.ok u) :
    ∃ removed new,
      exceptMap (fun i => pyGet original.flashcards i)
        ((masteredIndices session.ratings).sort (fun a b => a ≤ b)) = Except.ok removed ∧
      gen gaps = Except.ok new ∧
      u = { original_count := original.flashcards.length
            cards_removed := removed
            cards_added := new
            final_flashcards :=
              ⟨keptCards original.flashcards (masteredIndices session.ratings) ++ new⟩
            gap_report := gaps.gap_report } := by
  unfold adaptive_update_flashcards at h
  obtain ⟨removed, hrem, h2⟩ := except_bind_ok h
  obtain ⟨new, hgen, h3⟩ := except_bind_ok h2
  exact ⟨removed, new, hrem, hgen, (Except.ok.inj h3).symm⟩

/-- C5: `cards_removed` is determined solely by `session.ratings` and the
original card set: two successful runs of the adaptive updater on the same
session and original cards — with any knowledge gaps and any oracle behaviour
for card generation — produce the same `cards_removed`, and that list is
exactly the subscripts of the original cards at the mastered indices (the
distinct `flashcard_index` values of `difficulty == 1` ratings). -/
theorem cards_removed_determined (original : FlashcardSet) (session : StudySession)
    (gaps₁ gaps₂ : KnowledgeGaps)
    (gen₁ gen₂ : KnowledgeGaps → Except PyErr (List Flashcard))
    (u₁ u₂ : AdaptiveUpdate)
    (h₁ : adaptive_update_flashcards original session gaps₁ gen₁ = Except.ok u₁)
    (h₂ : adaptive_update_flashcards original session gaps₂ gen₂ = Except.ok u₂) :
    u₁.cards_removed = u₂.cards_removed ∧
    exceptMap (fun i => pyGet original.flashcards i)
      ((masteredIndices session.ratings).sort (fun a b => a ≤ b)) =
      Except.ok u₁.cards_removed ∧
    ∀ i : Int, i ∈ masteredIndices session.ratings ↔
      ∃ r ∈ session.ratings, r.difficulty = 1 ∧ r.flashcard_index = i := by
  obtain ⟨r₁, n₁, hrem₁, _, hu₁⟩ := adaptive_update_ok_elim original session gaps₁ gen₁ u₁ h₁
  obtain ⟨r₂, n₂, hrem₂, _, hu₂⟩ := adaptive_update_ok_elim original session gaps₂ gen₂ u₂ h₂
  have hr12 : r₁ = r₂ := Except.ok.inj (hrem₁.symm.trans hrem₂)
  refine ⟨?_, ?_, mem_masteredIndices session.ratings⟩
  · rw [hu₁, hu₂, hr12]
  · rw [hu₁]
    exact hrem₁

/-- Witness for C5: an empty-session update run twice with different gaps
and oracles. -/
theorem cards_removed_determined_witness :
    (⟨1, [], [], ⟨[⟨"q", "a"⟩]⟩, "g1"⟩ : AdaptiveUpdate).cards_removed =
      (⟨1, [], [⟨"n", "n"⟩], ⟨[⟨"q", "a"⟩, ⟨"n", "n"⟩]⟩, "g2"⟩ : AdaptiveUpdate).cards_removed ∧
    exceptMap (fun i => pyGet [(⟨"q", "a"⟩ : Flashcard)] i)
      ((masteredIndices [(⟨2, 2⟩ : StudyRating)]).sort (fun a b => a ≤ b)) =
      Except.ok (⟨1, [], [], ⟨[⟨"q", "a"⟩]⟩, "g1"⟩ : AdaptiveUpdate).cards_removed ∧
    ∀ i : Int, i ∈ masteredIndices [(⟨2, 2⟩ : StudyRating)] ↔
      ∃ r ∈ [(⟨2, 2⟩ : StudyRating)], r.difficulty = 1 ∧ r.flashcard_index = i := by
  have hsort : (masteredIndices [(⟨2, 2⟩ : StudyRating)]).sort (fun a b => a ≤ b) = [] := by
    have hm : masteredIndices [(⟨2, 2⟩ : StudyRating)] = ∅ := by decide
    rw [hm]
    exact Finset.sort_empty (fun a b => a ≤ b)
  have hrem : exceptMap (fun i => pyGet [(⟨"q", "a"⟩ : Flashcard)] i)
      ((masteredIndices [(⟨2, 2⟩ : StudyRating)]).sort (fun a b => a ≤ b)) =
      Except.ok [] := by
    rw [hsort]
    rfl
  have h₁ : adaptive_update_flashcards ⟨[⟨"q", "a"⟩]⟩ ⟨[⟨"q", "a"⟩], [⟨2, 2⟩], "t"⟩
      ⟨[], [], [], [], [], "g1"⟩ (fun _ => Except.ok []) =
      Except.ok ⟨1, [], [], ⟨[⟨"q", "a"⟩]⟩, "g1"⟩ := by
    rw [adaptive_update_eq ⟨[⟨"q", "a"⟩]⟩ ⟨[⟨"q", "a"⟩], [⟨2, 2⟩], "t"⟩
      ⟨[], [], [], [], [], "g1"⟩ (fun _ => Except.ok []) [] [] hrem rfl]
    rfl
  have h₂ : adaptive_update_flashcards ⟨[⟨"q", "a"⟩]⟩ ⟨[⟨"q", "a"⟩], [⟨2, 2⟩], "t"⟩
      ⟨[], ["w"], [], [], [], "g2"⟩ (fun _ => Except.ok [⟨"n", "n"⟩]) =
      Except.ok ⟨1, [], [⟨"n", "n"⟩], ⟨[⟨"q", "a"⟩, ⟨"n", "n"⟩]⟩, "g2"⟩ := by
    rw [adaptive_update_eq ⟨[⟨"q", "a"⟩]⟩ ⟨[⟨"q", "a"⟩], [⟨2, 2⟩], "t"⟩
      ⟨[], ["w"], [], [], [], "g2"⟩ (fun _ => Except.ok [⟨"n", "n"⟩]) [] [⟨"n", "n"⟩] hrem rfl]
    rfl
  exact cards_removed_determined ⟨[⟨"q", "a"⟩]⟩ ⟨[⟨"q", "a"⟩], [⟨2, 2⟩], "t"⟩
    ⟨[], [], [], [], [], "g1"⟩ ⟨[], ["w"], [], [], [], "g2"⟩
    (fun _ => Except.ok []) (fun _ => Except.ok [⟨"n", "n"⟩])
    ⟨1, [], [], ⟨[⟨"q", "a"⟩]⟩, "g1"⟩ ⟨1, [], [⟨"n", "n"⟩], ⟨[⟨"q", "a"⟩, ⟨"n", "n"⟩]⟩, "g2"⟩
    h₁ h₂

/-- C6: when both `gaps.critical_gaps` and `gaps.weak_areas` are empty,
gap-card generation returns `[]` without issuing any oracle request, and any
successful adaptive update built on it has `cards_added = []` and a final
card set consisting solely of the kept original cards. -/
theorem empty_gaps_skip_generation (gaps : KnowledgeGaps)
    (h1 : gaps.critical_gaps = []) (h2 : gaps.weak_areas = [])
    (file_id text_content : Option String)
    (oracle : KnowledgeGaps → Option String → Option String → List Flashcard) :
    generate_gap_filling_cardsRun gaps file_id text_content oracle = (Except.ok [], 0) ∧
    ∀ (original : FlashcardSet) (session : StudySession) (u : AdaptiveUpdate),
      adaptive_update_flashcards original session gaps
        (fun g => generate_gap_filling_cards g file_id text_content oracle) = Except.ok u →
      u.cards_added = [] ∧
      u.final_flashcards.flashcards =
        keptCards original.flashcards (masteredIndices session.ratings) := by
  have hrun : generate_gap_filling_cardsRun gaps file_id text_content oracle =
      (Except.ok [], 0) := by
    unfold generate_gap_filling_cardsRun
    rw [if_pos ⟨h1, h2⟩]
  refine ⟨hrun, ?_⟩
  intro original session u hu
  obtain ⟨removed, new, _, hgen, hurec⟩ :=
    adaptive_update_ok_elim original session gaps _ u hu
  have hnew : new = [] := by
    rw [generate_gap_filling_cards, hrun] at hgen
    exact (Except.ok.inj hgen).symm
  subst hnew
  rw [hurec]
  exact ⟨rfl, by simp⟩

/-- Witness for C6: empty gaps, no source variant supplied, arbitrary
oracle. -/
theorem empty_gaps_skip_generation_witness :
    generate_gap_filling_cardsRun ⟨["s"], [], [], [], [], "g"⟩ none none
      (fun _ _ _ => [⟨"x", "y"⟩]) = (Except.ok [], 0) :=
  (empty_gaps_skip_generation ⟨["s"], [], [], [], [], "g"⟩ rfl rfl none none
    (fun _ _ _ => [⟨"x", "y"⟩])).1

/-- C7: deck scoring on an empty per-card evaluation list returns without
raising; the overall deck score is exactly `0`, and when the oracle supplied
no aggregate the stored averages are the empty map (so every stored average
is trivially the `0.0` default). -/
theorem deck_scoring_empty (initAverages : Option (List (String × ℚ))) :
    computeDeckAverages [] initAverages = Except.ok (initAverages.getD [], 0) ∧
    computeDeckAverages [] none = Except.ok ([], 0) :=
  ⟨rfl, rfl⟩

/-- C3 (code bug): for every *non-empty* list of oracle-supplied per-card
evaluations, the aggregation in `evaluate_flashcard_set` raises
`AttributeError` at the criterion name `learning_value`: the loop iterates
over the names `atomicity, clarity, learning_value, accuracy`
(`src/evaluator.py` line 170) but `models.FlashcardEvaluation` declares
`atomicity, clarity, long_term_retention_potential, feedback` only, so no
average is ever produced. -/
theorem deck_scoring_attribute_error (evals : List FlashcardEvaluation)
    (h : evals ≠ []) (initAverages : Option (List (String × ℚ))) :
    computeDeckAverages evals initAverages =
      Except.error (PyErr.attributeError "learning_value") := by
  cases evals with
  | nil => exact absurd rfl h
  | cons e rest =>
    obtain ⟨bs₁, hbs₁, _⟩ := exceptMap_ok_of_forall
      (fun ev => FlashcardEvaluation.getattrInt ev "atomicity") (e :: rest)
      (fun a _ => ⟨a.atomicity, rfl⟩)
    obtain ⟨bs₂, hbs₂, _⟩ := exceptMap_ok_of_forall
      (fun ev => FlashcardEvaluation.getattrInt ev "clarity") (e :: rest)
      (fun a _ => ⟨a.clarity, rfl⟩)
    have h₁ : criterionScores (e :: rest) "atomicity" = Except.ok bs₁ := hbs₁
    have h₂ : criterionScores (e :: rest) "clarity" = Except.ok bs₂ := hbs₂
    have h₃ : criterionScores (e :: rest) "learning_value" =
        Except.error (PyErr.attributeError "learning_value") := rfl
    unfold computeDeckAverages
    rw [if_pos (by simp), h₁, h₂, h₃]
    rfl

/-- Witness for C3 at a concrete single-card evaluation. -/
theorem deck_scoring_attribute_error_witness :
    computeDeckAverages [⟨5, 6, 7, "fine"⟩] none =
      Except.error (PyErr.attributeError "learning_value") :=
  deck_scoring_attribute_error [⟨5, 6, 7, "fine"⟩] (by simp) none

/-- C4 (code bug): the aggregation in `evaluate_adaptation` never produces
the claimed averages — it raises on *every* input.  With non-empty
`gap_evaluations` it reads `gap.personalization_score`
(`src/evaluator.py` line 364), a field `models.GapCardEvaluation` does not
declare (`AttributeError`); with empty `gap_evaluations` it assigns
`evaluation.average_gap_personalization` (line 367), a field
`models.AdaptationEvaluation` does not declare, which pydantic v2 rejects
(`ValueError`). -/
theorem adaptation_scoring_always_raises (e0 : AdaptationEvaluation) :
    evaluateAdaptationAggregation e0 =
      Except.error (if e0.gap_evaluations = []
        then PyErr.valueError
          "AdaptationEvaluation object has no field average_gap_personalization"
        else PyErr.attributeError "personalization_score") := by
  obtain ⟨ge, re, a, b, c⟩ := e0
  cases ge with
  | nil => rfl
  | cons g gs => rfl

/-- C8: for every card set and every sequence of in-range difficulty inputs
(each card's entry list non-empty with all entries in `[1, 5]`), the study
session recorder presents each card in original order exactly once and
produces a `StudySession` whose `flashcards` equal the cards shown and whose
`ratings` hold exactly one rating per card, in card order, the `i`-th rating
carrying card index `i` and a difficulty in `[1, 5]` — in particular every
rating's card index is `< len(cards)`. -/
theorem conduct_study_session_spec (fs : FlashcardSet) (inputs : List (List Int))
    (ts : String) (hlen : inputs.length = fs.flashcards.length)
    (hvalid : ∀ l ∈ inputs, l ≠ [] ∧ ∀ r ∈ l, 1 ≤ r ∧ r ≤ 5) :
    ∃ s, conduct_study_session fs inputs ts = some s ∧
      s.flashcards = fs.flashcards ∧
      s.ratings.length = fs.flashcards.length ∧
      ∀ m (hm : m < s.ratings.length),
        (s.ratings.get ⟨m, hm⟩).flashcard_index = (m : Int) ∧
        1 ≤ (s.ratings.get ⟨m, hm⟩).difficulty ∧
        (s.ratings.get ⟨m, hm⟩).difficulty ≤ 5 := by
  obtain ⟨rs, hrs, hrslen, hspec⟩ :=
    collectRatings_spec fs.flashcards inputs 0 hlen hvalid
  refine ⟨⟨fs.flashcards, rs, ts⟩, ?_, rfl, hrslen, ?_⟩
  · simp [conduct_study_session, hrs]
  · intro m hm
    have := hspec m hm
    simpa using this

/-- Witness for C8: one card with an in-range rating entry. -/
theorem conduct_study_session_spec_witness :
    ∃ s, conduct_study_session ⟨[⟨"q", "a"⟩]⟩ [[3]] "t" = some s ∧
      s.flashcards = [⟨"q", "a"⟩] ∧
      s.ratings.length = 1 ∧
      ∀ m (hm : m < s.ratings.length),
        (s.ratings.get ⟨m, hm⟩).flashcard_index = (m : Int) ∧
        1 ≤ (s.ratings.get ⟨m, hm⟩).difficulty ∧
        (s.ratings.get ⟨m, hm⟩).difficulty ≤ 5 := by
  have h := conduct_study_session_spec ⟨[⟨"q", "a"⟩]⟩ [[3]] "t" (by decide)
    (by
      intro l hl
      simp only [List.mem_singleton] at hl
      subst hl
      exact ⟨by decide, by decide⟩)
  simpa using h

/-- C9, counterexample: a gap-card generation call with *neither* source
variant supplied — but empty gaps — returns `[]` successfully instead of
failing fast: the empty-gaps early return precedes the exactly-one-of check
(`src/openai_client.py` lines 288-293). -/
theorem source_ref_validation_cx :
    generate_gap_filling_cardsRun ⟨[], [], [], [], [], "g"⟩ none none
      (fun _ _ _ => [⟨"x", "y"⟩]) = (Except.ok [], 0) := rfl

/-- C9, amended: a generation call with both or neither source variant fails
fast with `ValueError` before any oracle request; a gap-card generation call
does so whenever the gap lists are not both empty (i.e. whenever an oracle
request would otherwise be issued); with both gap lists empty it instead
returns `[]` without error and without issuing any oracle request. -/
theorem source_ref_validation (file_id text_content : Option String)
    (hft : file_id.isNone = text_content.isNone)
    (oracleGen : Option String → Option String → FlashcardSet)
    (gaps : KnowledgeGaps)
    (oracleGap : KnowledgeGaps → Option String → Option String → List Flashcard) :
    generate_flashcardsRun file_id text_content oracleGen =
      (Except.error (PyErr.valueError "Must provide exactly one of file_id or text_content"),
        0) ∧
    (¬ (gaps.critical_gaps = [] ∧ gaps.weak_areas = []) →
      generate_gap_filling_cardsRun gaps file_id text_content oracleGap =
        (Except.error (PyErr.valueError "Must provide exactly one of file_id or text_content"),
          0)) ∧
    (gaps.critical_gaps = [] → gaps.weak_areas = [] →
      generate_gap_filling_cardsRun gaps file_id text_content oracleGap =
        (Except.ok [], 0)) := by
  have hb : (file_id.isNone == text_content.isNone) = true := by
    rw [hft]
    simp
  refine ⟨?_, ?_, ?_⟩
  · unfold generate_flashcardsRun
    rw [if_pos hb]
  · intro hne
    unfold generate_gap_filling_cardsRun
    rw [if_neg hne, if_pos hb]
  · intro h1 h2
    unfold generate_gap_filling_cardsRun
    rw [if_pos ⟨h1, h2⟩]

/-- Witness for C9 (amended): generation with neither variant supplied. -/
theorem source_ref_validation_witness :
    generate_flashcardsRun none none (fun _ _ => ⟨[]⟩) =
      (Except.error (PyErr.valueError "Must provide exactly one of file_id or text_content"),
        0) :=
  (source_ref_validation none none rfl (fun _ _ => ⟨[]⟩)
    ⟨[], [], ["c"], [], [], "g"⟩ (fun _ _ _ => [])).1

/-- Helper: binding a total continuation preserves `isOk`. -/
theorem except_bind_isOk (x : Except PyErr α) (f : α → Except PyErr β)
    (hf : ∀ a, (f a).isOk = true) : (x >>= f).isOk = x.isOk := by
  cases x with
  | error e => rfl
  | ok a =>
    show (f a).isOk = true
    exact hf a

/-- Helper: an `exceptMap` whose body only raises `IndexError` either
succeeds or returns `IndexError`. -/
theorem exceptMap_indexError (f : α → Except PyErr β) (l : List α)
    (hf : ∀ a ∈ l, ∀ e, f a = Except.error e → e = PyErr.indexError)
    (h : ¬ (exceptMap f l).isOk = true) :
    exceptMap f l = Except.error PyErr.indexError := by
  cases hres : exceptMap f l with
  | ok bs => rw [hres] at h; simp [Except.isOk, Except.toBool] at h
  | error e =>
    obtain ⟨a, ha, hfa⟩ := exceptMap_error_elim f l e hres
    rw [hf a ha e hfa]

/-- Helper: success of an `Except` value as an existential. -/
theorem except_isOk_iff_exists (x : Except PyErr α) :
    x.isOk = true ↔ ∃ a, x = Except.ok a := by
  cases x with
  | error e => simp [Except.isOk, Except.toBool]
  | ok a => simp [Except.isOk, Except.toBool]

/-- Helper: a formatting step of the gap analyzer succeeds exactly when the
rating's index is in Python subscript range. -/
theorem analyzeRatingLine_ok_iff (session : StudySession) (r : StudyRating) :
    (∃ b, analyzeRatingLine session r = Except.ok b) ↔
      0 ≤ r.flashcard_index + (session.flashcards.length : Int) ∧
      r.flashcard_index < (session.flashcards.length : Int) := by
  cases hp : pyGet session.flashcards r.flashcard_index with
  | ok fc =>
    constructor
    · intro _
      exact (pyGet_isOk_iff session.flashcards r.flashcard_index).mp
        (by simp [hp, Except.isOk, Except.toBool])
    · intro _
      refine ⟨"Card " ++ toString (r.flashcard_index + 1) ++ " (Difficulty: " ++
        toString r.difficulty ++ "/5): Q: " ++ fc.question ++ " | A: " ++ fc.answer, ?_⟩
      rw [analyzeRatingLine, hp]
  | error e =>
    constructor
    · rintro ⟨b, hb⟩
      rw [analyzeRatingLine, hp] at hb
      cases hb
    · intro hr
      have := (pyGet_isOk_iff session.flashcards r.flashcard_index).mpr hr
      rw [hp] at this
      simp [Except.isOk, Except.toBool] at this

/-- Helper: the only exception a formatting step can raise is
`IndexError`. -/
theorem analyzeRatingLine_error (session : StudySession) (r : StudyRating) (e : PyErr)
    (h : analyzeRatingLine session r = Except.error e) : e = PyErr.indexError := by
  cases hp : pyGet session.flashcards r.flashcard_index with
  | ok fc => rw [analyzeRatingLine, hp] at h; cases h
  | error e' =>
    rw [analyzeRatingLine, hp] at h
    cases h
    exact pyGet_error_eq hp

/-- C10, counterexample to the claim's "exactly": (a) the adaptive updater
only subscripts indices of difficulty-1 ratings, so the rating
`(index 5, difficulty 3)` over a one-card deck violates the claimed
precondition (`5 < 1` fails) yet the update succeeds; (b) Python subscripting
accepts negative indices down to `-len`, so the analyzer rating
`(index -2, difficulty 3)` over a one-card deck satisfies the claimed
precondition (`-2 < 1`) yet raises `IndexError`. -/
theorem rating_index_ranges_cx :
    ([(⟨5, 3⟩ : StudyRating)].all (fun r => decide (r.flashcard_index < (1 : Int))) = false) ∧
    (adaptive_update_flashcards ⟨[⟨"q", "a"⟩]⟩ ⟨[⟨"q", "a"⟩], [⟨5, 3⟩], "t"⟩
      ⟨[], [], [], [], [], "g"⟩ (fun _ => Except.ok [])).isOk = true ∧
    ([(⟨-2, 3⟩ : StudyRating)].all (fun r => decide (r.flashcard_index < (1 : Int))) = true) ∧
    analyze_knowledge_gaps ⟨[⟨"q", "a"⟩], [⟨-2, 3⟩], "t"⟩
      (fun _ => ⟨[], [], [], [], [], "g"⟩) = Except.error PyErr.indexError := by
  refine ⟨by decide, ?_, by decide, rfl⟩
  have hm : masteredIndices [(⟨5, 3⟩ : StudyRating)] = ∅ := by decide
  have hrem : exceptMap (fun i => pyGet [(⟨"q", "a"⟩ : Flashcard)] i)
      ((masteredIndices [(⟨5, 3⟩ : StudyRating)]).sort (fun a b => a ≤ b)) =
      Except.ok [] := by
    rw [hm, Finset.sort_empty (fun a b => a ≤ b)]
    rfl
  rw [adaptive_update_eq ⟨[⟨"q", "a"⟩]⟩ ⟨[⟨"q", "a"⟩], [⟨5, 3⟩], "t"⟩
    ⟨[], [], [], [], [], "g"⟩ (fun _ => Except.ok []) [] [] hrem rfl]
  rfl

/-- C10, amended: neither operation validates or clamps rating indices; the
boundary is Python's subscript range.  The gap analyzer succeeds iff *every*
rating's index lies in `[-len(session.cards), len(session.cards))`, and
otherwise fails with an index error; the adaptive updater (given a successful
gap-card generation) succeeds iff every *difficulty-1* rating's index lies in
`[-len(original.cards), len(original.cards))`, and otherwise fails with an
index error. -/
theorem rating_index_ranges (session : StudySession)
    (oracle : List String → KnowledgeGaps) (original : FlashcardSet)
    (gaps : KnowledgeGaps) (gen : KnowledgeGaps → Except PyErr (List Flashcard))
    (new : List Flashcard) (hgen : gen gaps = Except.ok new) :
    ((analyze_knowledge_gaps session oracle).isOk = true ↔
      ∀ r ∈ session.ratings,
        0 ≤ r.flashcard_index + (session.flashcards.length : Int) ∧
        r.flashcard_index < (session.flashcards.length : Int)) ∧
    (¬ (∀ r ∈ session.ratings,
        0 ≤ r.flashcard_index + (session.flashcards.length : Int) ∧
        r.flashcard_index < (session.flashcards.length : Int)) →
      analyze_knowledge_gaps session oracle = Except.error PyErr.indexError) ∧
    ((adaptive_update_flashcards original session gaps gen).isOk = true ↔
      ∀ r ∈ session.ratings, r.difficulty = 1 →
        0 ≤ r.flashcard_index + (original.flashcards.length : Int) ∧
        r.flashcard_index < (original.flashcards.length : Int)) ∧
    (¬ (∀ r ∈ session.ratings, r.difficulty = 1 →
        0 ≤ r.flashcard_index + (original.flashcards.length : Int) ∧
        r.flashcard_index < (original.flashcards.length : Int)) →
      adaptive_update_flashcards original session gaps gen =
        Except.error PyErr.indexError) := by
  have hlines : (analyze_knowledge_gaps session oracle).isOk =
      (analyzeRatingLines session).isOk :=
    except_bind_isOk (analyzeRatingLines session) _ (fun a => rfl)
  have hiffA : (analyze_knowledge_gaps session oracle).isOk = true ↔
      ∀ r ∈ session.ratings,
        0 ≤ r.flashcard_index + (session.flashcards.length : Int) ∧
        r.flashcard_index < (session.flashcards.length : Int) := by
    rw [hlines, analyzeRatingLines, exceptMap_isOk_iff]
    exact forall₂_congr (fun r _ => analyzeRatingLine_ok_iff session r)
  have hupd : (adaptive_update_flashcards original session gaps gen).isOk =
      (exceptMap (fun i => pyGet original.flashcards i)
        ((masteredIndices session.ratings).sort (fun a b => a ≤ b))).isOk := by
    unfold adaptive_update_flashcards
    exact except_bind_isOk _ _ (fun a => by rw [hgen]; rfl)
  have hiffC : (adaptive_update_flashcards original session gaps gen).isOk = true ↔
      ∀ r ∈ session.ratings, r.difficulty = 1 →
        0 ≤ r.flashcard_index + (original.flashcards.length : Int) ∧
        r.flashcard_index < (original.flashcards.length : Int) := by
    rw [hupd, exceptMap_isOk_iff]
    constructor
    · intro h r hr hd
      have hi : r.flashcard_index ∈ masteredIndices session.ratings :=
        (mem_masteredIndices session.ratings r.flashcard_index).mpr ⟨r, hr, hd, rfl⟩
      obtain ⟨b, hb⟩ := h r.flashcard_index
        ((Finset.mem_sort (fun a b => a ≤ b)).mpr hi)
      exact (pyGet_isOk_iff original.flashcards r.flashcard_index).mp
        (by simp [hb, Except.isOk, Except.toBool])
    · intro h i hi
      obtain ⟨r, hr, hd, hri⟩ := (mem_masteredIndices session.ratings i).mp
        ((Finset.mem_sort (fun a b => a ≤ b)).mp hi)
      have hrange := h r hr hd
      rw [hri] at hrange
      exact (except_isOk_iff_exists _).mp
        ((pyGet_isOk_iff original.flashcards i).mpr hrange)
  refine ⟨hiffA, ?_, hiffC, ?_⟩
  · intro hnot
    have hnotok : ¬ (analyzeRatingLines session).isOk = true := by
      intro hok
      exact hnot (hiffA.mp (by rw [hlines]; exact hok))
    have herr : analyzeRatingLines session = Except.error PyErr.indexError :=
      exceptMap_indexError (analyzeRatingLine session) session.ratings
        (fun r _ e he => analyzeRatingLine_error session r e he) hnotok
    unfold analyze_knowledge_gaps
    rw [herr]
    rfl
  · intro hnot
    have hnotok : ¬ (exceptMap (fun i => pyGet original.flashcards i)
        ((masteredIndices session.ratings).sort (fun a b => a ≤ b))).isOk = true := by
      intro hok
      apply hnot
      apply hiffC.mp
      rw [hupd]
      exact hok
    have herr := exceptMap_indexError (fun i => pyGet original.flashcards i)
      ((masteredIndices session.ratings).sort (fun a b => a ≤ b))
      (fun i _ e he => pyGet_error_eq he) hnotok
    unfold adaptive_update_flashcards
    rw [herr]
    rfl

/-- Witness for C10 (amended) on the empty session. -/
theorem rating_index_ranges_witness :
    (analyze_knowledge_gaps ⟨[], [], "t"⟩
      (fun _ => ⟨[], [], [], [], [], "g"⟩)).isOk = true ↔
      ∀ r ∈ ([] : List StudyRating),
        0 ≤ r.flashcard_index + (0 : Int) ∧ r.flashcard_index < (0 : Int) :=
  (rating_index_ranges ⟨[], [], "t"⟩ (fun _ => ⟨[], [], [], [], [], "g"⟩) ⟨[]⟩
    ⟨[], [], [], [], [], "g"⟩ (fun _ => Except.ok []) [] rfl).1

end FlashcardAgent
